import Mathlib

/-!
Shallow embedding of the flight-watch engine of `research_2b_files.py`
(repository `marlenezw/ambient_deep_agents`).

Strings are modelled as `List Char` so that the slug, path and URI
manipulations of the source can be reasoned about by structural recursion.
JSON record files are modelled as an association list from file name to the
parsed record (`Payload`); the store directory holds only well-formed JSON in
every situation a claim talks about, so parse failures of stored files are not
modelled.  I/O (sleeping, printing, MCP notifications) is dropped; the random
number generator of the simulator is replaced by the list of integer deltas it
would produce, and `uuid.uuid4().hex` by an explicit `watch_id` argument.
-/

namespace FlightWatch

/-- Strings of the Python source, modelled as lists of characters. -/
abbrev Str := List Char

/-- One element of a record's `history` list:
`\x7b"sequence": int, "status": str, "price": float, "note": str\x7d`.
Prices are modelled as rationals (the arithmetic the engine performs on them
is addition of small integers and `max`, which is exact). -/
structure Entry where
  sequence : Nat
  status : Str
  price : ℚ
  note : Str
deriving DecidableEq, Repr

/-- A numeric-or-string JSON value, as far as `float(...)` is concerned:
a JSON number, a string that `float` parses, or a string it rejects. -/
inductive JVal where
  | num : ℚ → JVal
  | strNum : ℚ → JVal
  | strBad : Str → JVal
deriving DecidableEq, Repr

/-- Python `float(v)`: succeeds on numbers and numeric strings, raises
(`none`) on non-numeric strings. -/
def pyFloat : JVal → Option ℚ
  | .num q => some q
  | .strNum q => some q
  | .strBad _ => none

/-- A watch record, the parsed form of one JSON file of the store directory.
`Option` fields model JSON keys that may be absent. -/
structure Payload where
  watch_id : Option Str
  origin : Str
  destination : Str
  departure_date : Str
  status : Str
  target_price : Option JVal
  context_file : Option Str
  history : List Entry
  file_name : Option Str
  resource_name : Option Str
  summary : Option Str
deriving DecidableEq, Repr

/-- The store directory: file name to parsed record, first binding wins
(a real directory has distinct names; lookup order is irrelevant then). -/
abbrev Store := List (Str × Payload)

/-- Existence check `(STORE_DIR / name).exists()` and reading: find the record
stored under a file name. -/
def lookupStore : Store → Str → Option Payload
  | [], _ => none
  | (n, p) :: rest, name => if n = name then some p else lookupStore rest name

/-! ## String helpers mirroring the Python library functions used -/

/-- The part of `l` after the last occurrence of `c` (all of `l` if `c` does
not occur).  This is exactly Python `l.split(c)[-1]`, and also `Path(l).name`
when `c = '/'` and `l` has no trailing slash. -/
def lastTokenOf (c : Char) (l : Str) : Str :=
  (l.reverse.takeWhile (· ≠ c)).reverse

/-- Python `Path(name).stem`: the name with its final `.suffix` removed; one with
no dot, or whose only dot is the leading character, is its own stem. -/
def pathStem (name : Str) : Str :=
  match name.reverse.dropWhile (· ≠ '.') with
  | [] => name
  | _ :: rest => if rest = [] then name else rest.reverse

/-- Decimal digits of a natural number, as produced by Python `str(n)`. -/
def natChars (n : Nat) : Str := Nat.toDigits 10 n

/-- Value of a hexadecimal digit, if `c` is one. -/
def hexVal (c : Char) : Option Nat :=
  if '0' ≤ c ∧ c ≤ '9' then some (c.toNat - (Char.toNat '0'))
  else if 'a' ≤ c ∧ c ≤ 'f' then some (c.toNat - (Char.toNat 'a') + 10)
  else if 'A' ≤ c ∧ c ≤ 'F' then some (c.toNat - (Char.toNat 'A') + 10)
  else none

/-- Recursion core of `unquote`; the fuel only bounds the recursion depth and
is never exhausted when the function is entered through `unquote`. -/
def unquoteAux : Nat → Str → Str
  | _, [] => []
  | 0, l => l
  | fuel + 1, c :: rest =>
    if c = '%' then
      match rest with
      | a :: b :: rest2 =>
        match hexVal a, hexVal b with
        | some x, some y => Char.ofNat (16 * x + y) :: unquoteAux fuel rest2
        | _, _ => '%' :: unquoteAux fuel rest
      | _ => '%' :: unquoteAux fuel rest
    else c :: unquoteAux fuel rest

/-- Python `urllib.parse.unquote`: decode `%hh` escapes, leaving invalid escape
sequences untouched. -/
def unquote (l : Str) : Str := unquoteAux l.length l

/-- Characters allowed in a URI scheme (letters, digits, `+`, `-`, `.`). -/
def isSchemeChar (c : Char) : Bool :=
  ('a' ≤ c && c ≤ 'z') || ('A' ≤ c && c ≤ 'Z') || ('0' ≤ c && c ≤ '9') ||
    c = '+' || c = '-' || c = '.'

/-- Split a URI at its first `:`; `none` when there is no colon. -/
def splitSchemeAux : Str → Option (Str × Str)
  | [] => none
  | c :: rest =>
    if c = ':' then some ([], rest)
    else (splitSchemeAux rest).map (fun sr => (c :: sr.1, sr.2))

/-- Lowercase every character (Python `str.lower` on the ASCII data used). -/
def lowerStr (l : Str) : Str := l.map Char.toLower

/-- Python `urllib.parse.urlparse(uri)`, restricted to the `(scheme, path)` pair the
server consults, modelled for the URI shapes this server emits and accepts:
a valid scheme followed by `:`, an optional `//netloc`, then the path.
An invalid or absent scheme yields an empty scheme with the whole input as
path, matching `urlparse` on plain paths. -/
def urlparseFile (uri : Str) : Str × Str :=
  match splitSchemeAux uri with
  | some (pre, rest) =>
    if pre ≠ [] ∧ pre.all isSchemeChar then
      let scheme := lowerStr pre
      let path :=
        if (['/', '/']).isPrefixOf rest then (rest.drop 2).dropWhile (· ≠ '/')
        else rest
      (scheme, path)
    else ([], uri)
  | none => ([], uri)

/-! ## The engine functions of `research_2b_files.py` -/

/-- Backslash to forward slash, the Windows-path normalization of `_resource_uri`. -/
def winSlash (c : Char) : Char := if c = '\\' then '/' else c

/-- Function `_resource_uri` (lines 43-52): produce a `file://` URI from the record's
absolute file path — forward slashes, guaranteed leading slash. -/
def _resource_uri (absPath : Str) : Str :=
  let path_str := absPath.map winSlash
  let path_str := if path_str.headD ' ' = '/' then path_str else '/' :: path_str
  ("file://").toList ++ path_str

/-- Is `c` kept verbatim by the `[^a-z0-9]+` substitution (after lowering)? -/
def isSlugChar (c : Char) : Bool :=
  ('a' ≤ c && c ≤ 'z') || ('0' ≤ c && c ≤ '9')

/-- Model of `re.sub("[^a-z0-9]+", "-", l)`: replace each maximal run of non-slug
characters with a single `-`.  The boolean accumulator records whether the
previous character was part of such a run. -/
def squashAux : Bool → Str → Str
  | _, [] => []
  | inRun, c :: rest =>
    if isSlugChar c then c :: squashAux false rest
    else if inRun then squashAux true rest
    else '-' :: squashAux true rest

/-- Strip leading and trailing occurrences of `c` (Python `str.strip("-")`). -/
def stripBoth (c : Char) (l : Str) : Str :=
  ((l.dropWhile (· = c)).reverse.dropWhile (· = c)).reverse

/-- The token `_slugify` makes from one part:
`re.sub(r"[^a-z0-9]+", "-", str(part).lower()).strip("-")`. -/
def slugToken (part : Str) : Str :=
  stripBoth '-' (squashAux false (lowerStr part))

/-- Python `"-".join(tokens)`. -/
def joinDash : List Str → Str
  | [] => []
  | [t] => t
  | t :: ts => t ++ '-' :: joinDash ts

/-- Function `_slugify` (lines 55-63): skip falsy (empty) parts, keep non-empty
tokens, join with `-`, defaulting to `"watch"`. -/
def _slugify (parts : List Str) : Str :=
  let tokens := ((parts.filter (· ≠ [])).map slugToken).filter (· ≠ [])
  let joined := joinDash tokens
  if joined = [] then ("watch").toList else joined

/-- The `while path.exists()` loop of `_allocate_watch_file`, with explicit
fuel for the unbounded search (the loop terminates because the directory is
finite; every theorem states what holds when the search succeeds).  Returns
`(file_name, candidate)`. -/
def allocLoop (store : Store) (base_slug id8 : Str) :
    Nat → Str → Nat → Option (Str × Str)
  | 0, _, _ => none
  | fuel + 1, candidate, suffix =>
    let file_name := candidate ++ (".json").toList
    if (lookupStore store file_name).isSome then
      allocLoop store base_slug id8 fuel
        (base_slug ++ '-' :: id8 ++ '-' :: natChars suffix) (suffix + 1)
    else some (file_name, candidate)

/-- Function `_allocate_watch_file` (lines 66-78): slug the attributes, append a short
id, and search for a collision-free file name.  Returns
`(file_name, resource_name)`. -/
def _allocate_watch_file (store : Store)
    (watch_id origin destination departure_date : Str) (fuel : Nat) :
    Option (Str × Str) :=
  let base_slug := _slugify [origin, destination, departure_date]
  let id8 := watch_id.take 8
  let candidate := base_slug ++ '-' :: id8
  (allocLoop store base_slug id8 fuel candidate 1).map
    (fun fc => (fc.1, ("flight-watch-").toList ++ fc.2))

/-- Scan of `_locate_watch_file` (lines 86-92): first stored record whose
embedded `watch_id` equals the requested id (a record without the field never
matches, like Python `payload.get("watch_id") == watch_id`). -/
def scanStore : Store → Str → Option (Str × Payload)
  | [], _ => none
  | (n, p) :: rest, watch_id =>
    if p.watch_id = some watch_id then some (n, p) else scanStore rest watch_id

/-- Function `_locate_watch_file` (lines 81-94): the legacy direct path `<id>.json`
first — returned without looking at its contents — then the scan. -/
def _locate_watch_file (store : Store) (watch_id : Str) :
    Option (Str × Payload) :=
  match lookupStore store (watch_id ++ (".json").toList) with
  | some p => some (watch_id ++ (".json").toList, p)
  | none => scanStore store watch_id

/-- Function `_load_watch` (lines 143-148): locate, then `setdefault` the `file_name`
and `resource_name` fields from the located path. -/
def _load_watch (store : Store) (watch_id : Str) : Option Payload :=
  (_locate_watch_file store watch_id).map fun np =>
    { np.2 with
      file_name := some (np.2.file_name.getD np.1),
      resource_name :=
        some (np.2.resource_name.getD
          (("flight-watch-").toList ++ pathStem np.1)) }

/-- The `/C:/...` drive-letter strip of `_parse_watch_id` (lines 117-118). -/
def driveStrip (p : Str) : Str :=
  if 2 < p.length ∧ p.headD ' ' = '/' ∧ p.getD 2 ' ' = ':' then p.drop 1
  else p

/-- Extraction of the watch id from a located record (lines 132-140): the
embedded `watch_id` if present and non-empty (Python truthiness), else
`file_path.stem.split("-")[-1]`, an error if that too is empty. -/
def widFromPayload (file_name : Str) (payload : Payload) : Except String Str :=
  let wid := payload.watch_id.getD []
  let wid := if wid = [] then lastTokenOf '-' (pathStem file_name) else wid
  if wid = [] then .error ("Unable to parse durable resource URI")
  else .ok wid

/-- Function `_parse_watch_id` (lines 101-140): check the scheme, URL-decode the path,
strip a spurious slash before a drive letter, take the base name, resolve it
in the store directory and extract the id from the record found there. -/
def _parse_watch_id (store : Store) (uri : Str) : Except String Str :=
  let sp := urlparseFile uri
  if sp.1 ≠ [] ∧ sp.1 ≠ ("file").toList then
    .error ("Unsupported resource scheme")
  else
    let file_path_str := driveStrip (unquote sp.2)
    let file_name := lastTokenOf '/' file_path_str
    match lookupStore store file_name with
    | none => .error ("Durable resource path not found")
    | some payload => widFromPayload file_name payload

/-! ## Watch simulator (`_simulate_price_updates`, lines 161-240)

One tick body covers lines 178-201; the surrounding `while True` loop with its
two exits (terminal status observed on reload at line 175, `notified` just set
at line 239) is `simRun`.  The record reloaded at each tick is the one the
previous tick persisted (the simulator is the only writer of its record), so
the run is modelled as payload-to-payload; `rng.randint(-40, 20)` becomes the
list of deltas the seeded generator would yield, and sleeping, printing and
notification sending (fire-and-forget, lines 203-237) are dropped. -/

/-- Is a stored status terminal (`notified` or `cancelled`, line 175)? -/
def terminalStatus (s : Str) : Bool :=
  s = ("notified").toList || s = ("cancelled").toList

/-- The user-facing alert message composed at lines 191-194 (numbers rendered
via a simple decimal form; Python formats floats). -/
def ratChars (q : ℚ) : Str :=
  (if q < 0 then ['-'] else []) ++ natChars q.num.natAbs ++
    (if q.den = 1 then [] else '/' :: natChars q.den)

/-- Alert summary text of lines 191-194. -/
def alertSummary (origin destination : Str) (new_price target : ℚ) : Str :=
  ("PRICE ALERT! Flight ").toList ++ origin ++ (" -> ").toList ++ destination ++
    (" dropped to $").toList ++ ratChars new_price ++
    (" (target was $").toList ++ ratChars target ++ (")").toList

/-- One tick body (lines 178-201): read the most recent price, apply the
delta, floor at 50, append the quote event, and decide the new status.
`payload["history"][-1]` presupposes a non-empty history (true of every
record this engine creates); the default entry is never consulted then. -/
def simTickBody (target_price : Option ℚ) (delta : ℤ) (payload : Payload) :
    Payload :=
  let current_price := (payload.history.getLastD ⟨0, [], 0, []⟩).price
  let new_price := max (current_price + (delta : ℚ)) 50
  let stage : Entry :=
    ⟨payload.history.length, ("price_update").toList, new_price,
      ("Received new quote from fare service.").toList⟩
  let history := payload.history ++ [stage]
  match target_price with
  | some t =>
    if new_price ≤ t then
      { payload with
        history := history
        status := ("notified").toList
        summary :=
          some (alertSummary payload.origin payload.destination new_price t) }
    else
      { payload with
        history := history
        status := ("watching").toList }
  | none =>
    { payload with
      history := history
      status := ("watching").toList }

/-- The simulator loop: stop when the reloaded status is terminal (line 175)
or right after a tick that set `notified` (line 239); otherwise tick with the
next delta the generator yields. -/
def simRun (target_price : Option ℚ) (payload : Payload) :
    List ℤ → Payload
  | [] => payload
  | d :: ds =>
    if terminalStatus payload.status then payload
    else
      let p := simTickBody target_price d payload
      if p.status = ("notified").toList then p
      else simRun target_price p ds

/-! ## Resource surface (`handle_call_tool`, `handle_read_resource`) -/

/-- The arguments of a `track_flight_price` call; `Option` models keys absent
from (or JSON-`null` in) the `arguments` object. -/
structure CreateArgs where
  origin : Option Str
  destination : Option Str
  departure_date : Option Str
  initial_price : Option JVal
  target_price : Option JVal
  context_file : Option Str
deriving DecidableEq, Repr

/-- What the returned resource link of a successful creation carries (the
fields of `link_meta` a claim consults, plus the URI). -/
structure CreateOut where
  file_name : Str
  resource_name : Str
  uri : Str
  watch_id : Str
deriving DecidableEq, Repr

/-- The initial history note written at creation (line 326). -/
def initNote : Str :=
  ("Initial fare captured by DeepAgents research step.").toList

/-- The `track_flight_price` branch of `handle_call_tool` (lines 295-391):
validate the required arguments (line 302), build the initial payload —
`float(initial_price)` can raise here, before anything is written — allocate
the file, persist, and return the link data.  The store directory is
`'/' :: storeDirTail`; `watch_id` stands for `uuid.uuid4().hex` and `fuel`
bounds the allocator's collision loop.  Starting the simulator task is
modelled separately by `simRun`. -/
def track_flight_price (store : Store) (storeDirTail : Str)
    (args : CreateArgs) (watch_id : Str) (fuel : Nat) :
    Store × Except String CreateOut :=
  if args.origin.isNone ∨ args.destination.isNone ∨
      args.departure_date.isNone ∨ args.initial_price.isNone then
    (store, .error ("Missing required arguments"))
  else
    let origin := args.origin.getD []
    let destination := args.destination.getD []
    let departure_date := args.departure_date.getD []
    match pyFloat (args.initial_price.getD (.num 0)) with
    | none => (store, .error ("could not convert string to float"))
    | some price =>
      let payload : Payload :=
        { watch_id := some watch_id
          origin := origin
          destination := destination
          departure_date := departure_date
          status := ("watching").toList
          target_price := args.target_price
          context_file := args.context_file
          history := [⟨0, ("snapshot").toList, price, initNote⟩]
          file_name := none
          resource_name := none
          summary := none }
      match _allocate_watch_file store watch_id origin destination
          departure_date fuel with
      | none => (store, .error ("allocator fuel exhausted"))
      | some (file_name, resource_name) =>
        let payload :=
          { payload with
            file_name := some file_name
            resource_name := some resource_name }
        ((file_name, payload) :: store,
          .ok ⟨file_name, resource_name,
            _resource_uri (('/' :: storeDirTail) ++ '/' :: file_name),
            watch_id⟩)

/-- Function `handle_call_tool` (lines 286-391): dispatch on the tool name. -/
def handle_call_tool (store : Store) (storeDirTail : Str) (name : Str)
    (args : CreateArgs) (watch_id : Str) (fuel : Nat) :
    Store × Except String CreateOut :=
  if name = ("track_flight_price").toList then
    track_flight_price store storeDirTail args watch_id fuel
  else (store, .error ("Unknown tool"))

/-- Function `handle_read_resource` (lines 421-425): decode the URI, load the record
(raising not-found from `_locate_watch_file` when it resolves nowhere) and
return it. -/
def handle_read_resource (store : Store) (uri : Str) :
    Except String Payload :=
  match _parse_watch_id store uri with
  | .error e => .error e
  | .ok watch_id =>
    match _load_watch store watch_id with
    | some payload => .ok payload
    | none => .error ("Flight watch not found")

/-! ## Derived definitions used in statements -/

/-- The quote event one tick appends (lines 181-186). -/
def tickStage (δ : ℤ) (p : Payload) : Entry :=
  ⟨p.history.length, ("price_update").toList,
    max ((p.history.getLastD ⟨0, [], 0, []⟩).price + (δ : ℚ)) 50,
    ("Received new quote from fare service.").toList⟩

/-- Index invariant of a record's history: the entry at index `i` carries
sequence number `i`. -/
def seqInvariant (p : Payload) : Prop :=
  ∀ i, (h : i < p.history.length) → p.history[i].sequence = i

/-! ## Example data for witnesses and counterexamples -/

/-- Example store-directory tail: the store lives at `/store`. -/
def exDir : Str := ("store").toList

/-- Example allocator-produced file name. -/
def exName : Str := ("lhr-lis-2025-06-01-ab12cd34.json").toList

/-- Example record without `file_name`/`resource_name` fields, like a legacy
or externally written record. -/
def exPayload : Payload :=
  { watch_id := some (("w1").toList)
    origin := ("LHR").toList
    destination := ("LIS").toList
    departure_date := ("2025-06-01").toList
    status := ("watching").toList
    target_price := none
    context_file := none
    history := [⟨0, ("snapshot").toList, 400, initNote⟩]
    file_name := none
    resource_name := none
    summary := none }

/-- Example creation arguments: LHR to LIS on 2025-06-01, initial price 400,
target 350. -/
def exArgs : CreateArgs :=
  ⟨some (("LHR").toList), some (("LIS").toList),
    some (("2025-06-01").toList), some (.num 400), some (.num 350), none⟩

/-- Example fresh watch id (stands for a `uuid4().hex` value). -/
def exWid : Str := ("ab12cd34efgh5678").toList

/-- The record the example creation persists. -/
def exCreated : Payload :=
  { watch_id := some exWid
    origin := ("LHR").toList
    destination := ("LIS").toList
    departure_date := ("2025-06-01").toList
    status := ("watching").toList
    target_price := some (.num 350)
    context_file := none
    history := [⟨0, ("snapshot").toList, 400, initNote⟩]
    file_name := some exName
    resource_name := some (("flight-watch-lhr-lis-2025-06-01-ab12cd34").toList)
    summary := none }

/-- The link data the example creation returns. -/
def exOut : CreateOut :=
  ⟨exName, ("flight-watch-lhr-lis-2025-06-01-ab12cd34").toList,
    _resource_uri (('/' :: exDir) ++ '/' :: exName), exWid⟩

/-- The file name a second allocation with the same attributes and id picks:
the collision suffix `-1`. -/
def exName1 : Str := ("lhr-lis-2025-06-01-ab12cd34-1.json").toList

/-- What reading the legacy-shaped example record actually returns: the
stored payload with `file_name` and `resource_name` filled in. -/
def exLoaded : Payload :=
  { exPayload with
    file_name := some exName
    resource_name :=
      some (("flight-watch-lhr-lis-2025-06-01-ab12cd34").toList) }

/-- The example record stripped of its `watch_id` field. -/
def exNoId : Payload := { exPayload with watch_id := none }

/-- A record stored under `abc.json` whose embedded id is `zzz`, not `abc`. -/
def exMismatch : Payload := { exPayload with watch_id := some (("zzz").toList) }

/-! ## Helper lemmas -/

theorem takeWhile_neq_append (c : Char) (l r : Str) (h : c ∉ l) :
    (l ++ c :: r).takeWhile (· ≠ c) = l := by
  induction l with
  | nil => simp [List.takeWhile]
  | cons x xs ih =>
    have hx : x ≠ c := fun hxc => h (hxc ▸ List.mem_cons_self x xs)
    have hxs : c ∉ xs := fun hm => h (List.mem_cons_of_mem x hm)
    rw [List.cons_append, List.takeWhile_cons, if_pos (by simpa using hx),
      ih hxs]

theorem lastTokenOf_append (c : Char) (xs ys : Str) (h : c ∉ ys) :
    lastTokenOf c (xs ++ c :: ys) = ys := by
  have hrev : c ∉ ys.reverse := by simpa using h
  unfold lastTokenOf
  rw [List.reverse_append, List.reverse_cons, List.append_assoc,
    List.singleton_append, takeWhile_neq_append c ys.reverse xs.reverse hrev,
    List.reverse_reverse]

theorem lastTokenOf_no_sep (c : Char) (l : Str) (h : c ∉ l) :
    lastTokenOf c l = l := by
  have hall : ∀ a ∈ l.reverse, (fun x => decide (x ≠ c)) a = true := by
    intro a ha
    have hac : a ≠ c := fun hac => h (List.mem_reverse.1 (hac ▸ ha))
    simpa using hac
  unfold lastTokenOf
  rw [List.takeWhile_eq_self_iff.2 hall, List.reverse_reverse]

theorem unquoteAux_no_pct (fuel : Nat) (l : Str) (h : '%' ∉ l) :
    unquoteAux fuel l = l := by
  induction fuel generalizing l with
  | zero => cases l <;> rfl
  | succ n ih =>
    cases l with
    | nil => rfl
    | cons c rest =>
      have hc : c ≠ '%' := fun hcp => h (hcp ▸ List.mem_cons_self c rest)
      have hrest : '%' ∉ rest := fun hm => h (List.mem_cons_of_mem c hm)
      simp [unquoteAux, hc, ih rest hrest]

theorem unquote_no_pct (l : Str) (h : '%' ∉ l) : unquote l = l :=
  unquoteAux_no_pct l.length l h

theorem map_winSlash_id (l : Str) (h : '\\' ∉ l) : l.map winSlash = l := by
  induction l with
  | nil => rfl
  | cons c rest ih =>
    have hc : c ≠ '\\' := fun hcb => h (hcb ▸ List.mem_cons_self c rest)
    have hrest : '\\' ∉ rest := fun hm => h (List.mem_cons_of_mem c hm)
    simp [winSlash, hc, ih hrest]

theorem pathStem_json (x : Str) (hd : '.' ∉ x) (hne : x ≠ []) :
    pathStem (x ++ (".json").toList) = x := by
  have hrev : '.' ∉ x.reverse := by simpa using hd
  have hrevne : x.reverse ≠ [] := by simpa using hne
  unfold pathStem
  have hshape : (x ++ (".json").toList).reverse.dropWhile (· ≠ '.') =
      '.' :: x.reverse := by
    show (x ++ ('.' :: ('j' :: 's' :: 'o' :: 'n' :: []))).reverse.dropWhile
        (· ≠ '.') = '.' :: x.reverse
    rw [List.reverse_append]
    simp only [List.reverse_cons, List.reverse_nil, List.nil_append,
      List.append_assoc, List.singleton_append, List.cons_append,
      List.dropWhile]
    norm_num [List.dropWhile_eq_self_iff]
    cases hx : x.reverse with
    | nil => exact absurd hx hrevne
    | cons a as =>
      have ha : a ≠ '.' := by
        intro hae
        exact hrev (hx ▸ (hae ▸ List.mem_cons_self a as))
      simp [List.dropWhile, ha, hx]
  rw [hshape]
  simp [hrevne]

theorem urlparse_file_uri (rest : Str) :
    urlparseFile (("file://").toList ++ '/' :: rest) =
      (("file").toList, '/' :: rest) := rfl

/-- The resolution core of `_parse_watch_id`: for a URI this server encodes —
store directory `'/' :: dtail`, a base name free of separators and escape
characters — decoding resolves exactly the record stored under that base
name and extracts its id. -/
theorem parse_locates (store : Store) (dtail fname : Str)
    (hfs : '/' ∉ fname) (hfp : '%' ∉ fname) (hfb : '\\' ∉ fname)
    (hdp : '%' ∉ dtail) (hdb : '\\' ∉ dtail) :
    _parse_watch_id store (_resource_uri (('/' :: dtail) ++ '/' :: fname)) =
      match lookupStore store fname with
      | none => Except.error ("Durable resource path not found")
      | some payload => widFromPayload fname payload := by
  have hmap : (('/' :: dtail) ++ '/' :: fname).map winSlash =
      ('/' :: dtail) ++ '/' :: fname := by
    apply map_winSlash_id
    simp only [List.mem_append, List.mem_cons]
    rintro (⟨h | h⟩ | h | h) <;> first
      | exact absurd h.symm (by decide)
      | exact hdb h
      | exact hfb h
  have huri : _resource_uri (('/' :: dtail) ++ '/' :: fname) =
      ("file://").toList ++ '/' :: (dtail ++ '/' :: fname) := by
    unfold _resource_uri
    rw [hmap]
    rfl
  have hnopct : '%' ∉ '/' :: (dtail ++ '/' :: fname) := by
    simp only [List.mem_cons, List.mem_append]
    rintro (h | h | h | h) <;> first
      | exact absurd h.symm (by decide)
      | exact hdp h
      | exact hfp h
  rw [huri]
  unfold _parse_watch_id
  rw [show urlparseFile (("file://").toList ++ '/' :: (dtail ++ '/' :: fname)) =
      (("file").toList, '/' :: (dtail ++ '/' :: fname)) from rfl]
  simp only
  rw [if_neg (by simp)]
  rw [unquote_no_pct _ hnopct]
  unfold driveStrip
  by_cases hdrive : 2 < ('/' :: (dtail ++ '/' :: fname)).length ∧
      ('/' :: (dtail ++ '/' :: fname)).headD ' ' = '/' ∧
      ('/' :: (dtail ++ '/' :: fname)).getD 2 ' ' = ':'
  · rw [if_pos hdrive]
    rw [show ('/' :: (dtail ++ '/' :: fname)).drop 1 = dtail ++ '/' :: fname
      from rfl]
    rw [lastTokenOf_append '/' dtail fname hfs]
  · rw [if_neg hdrive]
    rw [show '/' :: (dtail ++ '/' :: fname) = ('/' :: dtail) ++ '/' :: fname
      from rfl]
    rw [lastTokenOf_append '/' ('/' :: dtail) fname hfs]

/-! ## C1 — decode after encode recovers the embedded watch id -/

/-- C1: for every record stored in the store directory under a real file
name (no path separator, percent sign or backslash — every name the
allocator produces is of this shape) whose JSON payload carries a non-empty
`watch_id`, decoding the URI produced by encoding that record's path yields
exactly that embedded `watch_id`. -/
theorem watch_id_roundtrip (store : Store) (dtail fname w : Str) (p : Payload)
    (hfs : '/' ∉ fname) (hfp : '%' ∉ fname) (hfb : '\\' ∉ fname)
    (hdp : '%' ∉ dtail) (hdb : '\\' ∉ dtail)
    (hrec : lookupStore store fname = some p)
    (hwid : p.watch_id = some w) (hne : w ≠ []) :
    _parse_watch_id store (_resource_uri (('/' :: dtail) ++ '/' :: fname)) =
      .ok w := by
  rw [parse_locates store dtail fname hfs hfp hfb hdp hdb, hrec]
  simp only [widFromPayload, hwid, Option.getD_some]
  rw [if_neg hne, if_neg hne]

/-- Witness for C1 at a concrete store, record and URI. -/
theorem watch_id_roundtrip_witness :
    _parse_watch_id [(exName, exPayload)]
        (_resource_uri (('/' :: exDir) ++ '/' :: exName)) =
      .ok (("w1").toList) :=
  watch_id_roundtrip [(exName, exPayload)] exDir exName (("w1").toList)
    exPayload (by decide) (by decide) (by decide) (by decide) (by decide)
    (by decide) (by decide) (by decide)

/-! ## Simulator lemmas shared by C2, C3 and C4 -/

theorem simTickBody_history (target : Option ℚ) (δ : ℤ) (p : Payload) :
    (simTickBody target δ p).history = p.history ++ [tickStage δ p] := by
  unfold simTickBody tickStage
  cases target with
  | none => rfl
  | some t =>
    by_cases h : max ((p.history.getLastD ⟨0, [], 0, []⟩).price + (δ : ℚ)) 50 ≤ t
    · simp only [if_pos h]
    · simp only [if_neg h]

theorem seqInvariant_tick (target : Option ℚ) (δ : ℤ) (p : Payload)
    (hp : seqInvariant p) : seqInvariant (simTickBody target δ p) := by
  intro i hi
  simp only [simTickBody_history] at hi ⊢
  rw [List.length_append, List.length_singleton] at hi
  rcases Nat.lt_succ_iff_lt_or_eq.1 hi with hlt | heq
  · rw [List.getElem_append_left hlt]
    exact hp i hlt
  · subst heq
    rw [List.getElem_append_right (le_refl _)]
    simp [tickStage]

theorem seqInvariant_run (target : Option ℚ) (ds : List ℤ) :
    ∀ p, seqInvariant p → seqInvariant (simRun target p ds) := by
  induction ds with
  | nil => intro p hp; exact hp
  | cons d ds ih =>
    intro p hp
    show seqInvariant
      (if terminalStatus p.status then p
       else if (simTickBody target d p).status = ("notified").toList then
         simTickBody target d p
       else simRun target (simTickBody target d p) ds)
    split
    · exact hp
    · split
      · exact seqInvariant_tick target d p hp
      · exact ih _ (seqInvariant_tick target d p hp)

/-- Every name `allocLoop` returns extends the base slug, carries the
`.json` suffix, and is free in the store it searched. -/
theorem allocLoop_shape (fuel : Nat) (store : Store) (base id8 : Str) :
    ∀ (cand : Str) (suffix : Nat) (f c : Str),
    allocLoop store base id8 fuel cand suffix = some (f, c) →
    (∃ r, cand = base ++ r) →
    (∃ r, c = base ++ r) ∧ f = c ++ (".json").toList ∧
      lookupStore store f = none := by
  induction fuel with
  | zero => intro cand suffix f c h _; exact absurd h (by simp [allocLoop])
  | succ n ih =>
    intro cand suffix f c h hcand
    unfold allocLoop at h
    by_cases hex : (lookupStore store (cand ++ (".json").toList)).isSome
    · rw [if_pos hex] at h
      exact ih _ _ _ _ h ⟨'-' :: id8 ++ '-' :: natChars suffix, by simp⟩
    · rw [if_neg hex] at h
      simp only [Option.some.injEq, Prod.mk.injEq] at h
      obtain ⟨hf, hc⟩ := h
      subst hc
      refine ⟨hcand, hf.symm, ?_⟩
      rw [hf] at hex
      exact Option.not_isSome_iff_eq_none.1 hex

/-- Success shape of a `track_flight_price` call: the converted price, the
freshly written record and its allocator-produced file name. -/
theorem track_success (store : Store) (dtail : Str) (args : CreateArgs)
    (wid : Str) (fuel : Nat) (store' : Store) (out : CreateOut)
    (h : track_flight_price store dtail args wid fuel = (store', .ok out)) :
    ∃ q payload rest,
      pyFloat (args.initial_price.getD (.num 0)) = some q ∧
      payload.status = ("watching").toList ∧
      payload.history = [⟨0, ("snapshot").toList, q, initNote⟩] ∧
      payload.watch_id = some wid ∧
      store' = (out.file_name, payload) :: store ∧
      out.file_name =
        _slugify [args.origin.getD [], args.destination.getD [],
          args.departure_date.getD []] ++ rest ∧
      lookupStore store out.file_name = none := by
  by_cases hv : args.origin.isNone ∨ args.destination.isNone ∨
      args.departure_date.isNone ∨ args.initial_price.isNone
  · unfold track_flight_price at h
    rw [if_pos hv] at h
    exact absurd (congrArg Prod.snd h) (by simp)
  cases hq : pyFloat (args.initial_price.getD (.num 0)) with
  | none =>
    unfold track_flight_price at h
    rw [if_neg hv] at h
    simp only [hq] at h
    exact absurd (congrArg Prod.snd h) (by simp)
  | some q =>
    cases halloc : _allocate_watch_file store wid (args.origin.getD [])
        (args.destination.getD []) (args.departure_date.getD []) fuel with
    | none =>
      unfold track_flight_price at h
      rw [if_neg hv] at h
      simp only [hq, halloc] at h
      exact absurd (congrArg Prod.snd h) (by simp)
    | some fr =>
      obtain ⟨file_name, resource_name⟩ := fr
      unfold track_flight_price at h
      rw [if_neg hv] at h
      simp only [hq, halloc] at h
      have hstore := congrArg Prod.fst h
      have hout := congrArg Prod.snd h
      simp only at hstore hout
      have hout' := Except.ok.inj hout
      obtain ⟨c, hc, hfc⟩ : ∃ c, allocLoop store
          (_slugify [args.origin.getD [], args.destination.getD [],
            args.departure_date.getD []]) (wid.take 8) fuel
          (_slugify [args.origin.getD [], args.destination.getD [],
            args.departure_date.getD []] ++ '-' :: wid.take 8) 1 =
          some (file_name, c) ∧
          resource_name = ("flight-watch-").toList ++ c := by
        simp only [_allocate_watch_file] at halloc
        cases hl : allocLoop store
            (_slugify [args.origin.getD [], args.destination.getD [],
              args.departure_date.getD []]) (wid.take 8) fuel
            (_slugify [args.origin.getD [], args.destination.getD [],
              args.departure_date.getD []] ++ '-' :: wid.take 8) 1 with
        | none => rw [hl] at halloc; exact absurd halloc (by simp)
        | some fc =>
          rw [hl] at halloc
          simp only [Option.map_some', Option.some.injEq,
            Prod.mk.injEq] at halloc
          exact ⟨fc.2, by rw [← halloc.1], halloc.2.symm⟩
      obtain ⟨⟨r, hr⟩, hjson, hfree⟩ := allocLoop_shape fuel store _ _ _ _ _ _
        hc ⟨'-' :: wid.take 8, rfl⟩
      refine ⟨q,
        { watch_id := some wid
          origin := args.origin.getD []
          destination := args.destination.getD []
          departure_date := args.departure_date.getD []
          status := ("watching").toList
          target_price := args.target_price
          context_file := args.context_file
          history := [⟨0, ("snapshot").toList, q, initNote⟩]
          file_name := some file_name
          resource_name := some resource_name
          summary := none },
        r ++ (".json").toList, rfl, rfl, rfl, rfl, ?_, ?_, ?_⟩
      · rw [← hstore, ← hout']
      · rw [← hout']
        simp only
        rw [hjson, hr, List.append_assoc]
      · rw [← hout']
        simpa [hjson, hr] using hfree

theorem terminalStatus_iff (s : Str) : terminalStatus s = true ↔
    (s = ("notified").toList ∨ s = ("cancelled").toList) := by
  simp [terminalStatus]

/-! ## C2 — `history[i].sequence == i` under create and ticks -/

/-- C2: a record persisted by a successful create call has `sequence = 0` at
index 0, and after any run of simulator ticks every history index `i` still
holds the entry with sequence number `i`: create writes the single entry `0`
and each tick appends one entry numbered with the history length at append
time. -/
theorem history_sequence_indexed (store : Store) (dtail : Str)
    (args : CreateArgs) (wid : Str) (fuel : Nat) (store' : Store)
    (out : CreateOut) (p0 : Payload) (target : Option ℚ) (ds : List ℤ)
    (hcreate : track_flight_price store dtail args wid fuel =
      (store', .ok out))
    (hlook : lookupStore store' out.file_name = some p0) :
    ∀ i, (h : i < (simRun target p0 ds).history.length) →
      (simRun target p0 ds).history[i].sequence = i := by
  obtain ⟨q, payload, rest, hq, hst, hh, hw, hstore', hname, hfree⟩ :=
    track_success store dtail args wid fuel store' out hcreate
  have hp0 : p0 = payload := by
    rw [hstore'] at hlook
    simpa [lookupStore] using hlook.symm
  subst hp0
  have hinv : seqInvariant p0 := by
    intro i hi
    simp only [hh] at hi ⊢
    have hi0 : i = 0 := by simpa using hi
    subst hi0
    rfl
  exact seqInvariant_run target ds p0 hinv

/-- Witness for C2: the record of the example creation satisfies the index
invariant (run with no pending deltas; the price arithmetic of a tick is not
kernel-reducible, so the concrete check instantiates the empty run). -/
theorem history_sequence_indexed_witness :
    0 < (simRun (some 350) exCreated []).history.length ∧
    ((simRun (some 350) exCreated []).history.get
      ⟨0, by decide⟩).sequence = 0 :=
  ⟨by decide,
    history_sequence_indexed [] exDir exArgs exWid 2
      ((exName, exCreated) :: []) exOut exCreated (some 350) []
      rfl (by decide) 0 (by decide)⟩

/-! ## C3 — terminal status stops the simulator -/

/-- C3: a simulator tick that loads a record whose status is terminal
(`notified` or `cancelled`) stops before appending anything — the whole
remaining run leaves the record untouched — and a tick that itself sets
`notified` stops right after persisting that tick. -/
theorem terminal_status_stops_sim :
    (∀ (target : Option ℚ) (p : Payload) (ds : List ℤ),
      (p.status = ("notified").toList ∨ p.status = ("cancelled").toList) →
      simRun target p ds = p) ∧
    (∀ (target : Option ℚ) (p : Payload) (d : ℤ) (ds : List ℤ),
      ¬(p.status = ("notified").toList ∨ p.status = ("cancelled").toList) →
      (simTickBody target d p).status = ("notified").toList →
      simRun target p (d :: ds) = simTickBody target d p) := by
  constructor
  · intro target p ds h
    cases ds with
    | nil => rfl
    | cons d ds =>
      show (if terminalStatus p.status then p
        else if (simTickBody target d p).status = ("notified").toList then
          simTickBody target d p
        else simRun target (simTickBody target d p) ds) = p
      rw [if_pos ((terminalStatus_iff p.status).2 h)]
  · intro target p d ds hterm hn
    show (if terminalStatus p.status then p
      else if (simTickBody target d p).status = ("notified").toList then
        simTickBody target d p
      else simRun target (simTickBody target d p) ds) =
      simTickBody target d p
    rw [if_neg (fun hc => hterm ((terminalStatus_iff p.status).1 hc)),
      if_pos hn]

/-- Witness for C3: a cancelled record survives a run unchanged, and a tick
that reaches the target stops the run right after that tick. -/
theorem terminal_status_stops_sim_witness :
    simRun (some 350) { exCreated with status := ("cancelled").toList }
        [-10] =
      { exCreated with status := ("cancelled").toList } ∧
    simRun (some 350) exCreated [-60, 7] =
      simTickBody (some 350) (-60) exCreated :=
  ⟨terminal_status_stops_sim.1 (some 350)
      { exCreated with status := ("cancelled").toList } [-10]
      (Or.inr rfl),
    terminal_status_stops_sim.2 (some 350) exCreated (-60) [7]
      (by decide)
      (by
        have hle : max ((exCreated.history.getLastD
            ⟨0, [], 0, []⟩).price + ((-60 : ℤ) : ℚ)) 50 ≤ 350 := by
          norm_num [exCreated, max_le_iff]
        simp only [simTickBody]
        rw [if_pos hle])⟩

/-! ## C4 — one non-terminal tick: price formula and status decision -/

/-- Status and summary of one tick: `notified` exactly when a target exists
and the new price is at or below it, with a summary composed then; otherwise
`watching`. -/
theorem simTickBody_status (target : Option ℚ) (δ : ℤ) (p : Payload) :
    ((simTickBody target δ p).status = ("notified").toList ↔
      ∃ t, target = some t ∧ (tickStage δ p).price ≤ t) ∧
    ((simTickBody target δ p).status = ("notified").toList →
      (simTickBody target δ p).summary.isSome) ∧
    ((simTickBody target δ p).status ≠ ("notified").toList →
      (simTickBody target δ p).status = ("watching").toList) := by
  cases target with
  | none =>
    have hst : (simTickBody none δ p).status = ("watching").toList := rfl
    refine ⟨?_, ?_, fun _ => hst⟩
    · rw [hst]
      constructor
      · intro h; exact absurd h (by decide)
      · rintro ⟨t, ht, _⟩; cases ht
    · intro h; rw [hst] at h; exact absurd h (by decide)
  | some t =>
    by_cases hle : max ((p.history.getLastD ⟨0, [], 0, []⟩).price +
        (δ : ℚ)) 50 ≤ t
    · have hst : (simTickBody (some t) δ p).status = ("notified").toList := by
        simp only [simTickBody]
        rw [if_pos hle]
      have hsum : (simTickBody (some t) δ p).summary.isSome = true := by
        simp only [simTickBody]
        rw [if_pos hle]
        rfl
      exact ⟨⟨fun _ => ⟨t, rfl, hle⟩, fun _ => hst⟩, fun _ => hsum,
        fun hne => absurd hst hne⟩
    · have hst : (simTickBody (some t) δ p).status = ("watching").toList := by
        simp only [simTickBody]
        rw [if_neg hle]
      refine ⟨?_, ?_, fun _ => hst⟩
      · rw [hst]
        constructor
        · intro h; exact absurd h (by decide)
        · rintro ⟨t', ht', hle'⟩
          cases ht'
          exact absurd hle' hle
      · intro h; rw [hst] at h; exact absurd h (by decide)

/-- C4: on a non-terminal tick with delta in the generator's range
`[-40, 20]`, the appended entry's price is `max(previous price + delta, 50)`
— hence at least 50 — and the resulting status is `notified` exactly when a
target price is configured and the new price is at or below it (an alert
summary is composed in that case); otherwise the status is `watching`. -/
theorem tick_price_and_status (target : Option ℚ) (δ : ℤ) (p : Payload)
    (hterm : ¬ terminalStatus p.status = true)
    (hlo : -40 ≤ δ) (hhi : δ ≤ 20) (hne : p.history ≠ []) :
    ∃ e : Entry,
      (simTickBody target δ p).history = p.history ++ [e] ∧
      e.price = max ((p.history.getLastD ⟨0, [], 0, []⟩).price + (δ : ℚ)) 50 ∧
      50 ≤ e.price ∧
      ((simTickBody target δ p).status = ("notified").toList ↔
        ∃ t, target = some t ∧ e.price ≤ t) ∧
      ((simTickBody target δ p).status = ("notified").toList →
        (simTickBody target δ p).summary.isSome) ∧
      ((simTickBody target δ p).status ≠ ("notified").toList →
        (simTickBody target δ p).status = ("watching").toList) := by
  obtain ⟨h1, h2, h3⟩ := simTickBody_status target δ p
  exact ⟨tickStage δ p, simTickBody_history target δ p, rfl,
    le_max_right _ _, h1, h2, h3⟩

/-- Witness for C4 at a concrete record and delta. -/
theorem tick_price_and_status_witness :
    (¬ terminalStatus exCreated.status = true) ∧ (-40 : ℤ) ≤ -35 ∧
      (-35 : ℤ) ≤ 20 ∧ exCreated.history ≠ [] ∧
    ∃ e : Entry,
      (simTickBody (some 350) (-35) exCreated).history =
        exCreated.history ++ [e] ∧
      e.price =
        max ((exCreated.history.getLastD ⟨0, [], 0, []⟩).price +
          ((-35 : ℤ) : ℚ)) 50 ∧
      50 ≤ e.price ∧
      ((simTickBody (some 350) (-35) exCreated).status =
          ("notified").toList ↔
        ∃ t, (some (350 : ℚ)) = some t ∧ e.price ≤ t) ∧
      ((simTickBody (some 350) (-35) exCreated).status =
          ("notified").toList →
        (simTickBody (some 350) (-35) exCreated).summary.isSome) ∧
      ((simTickBody (some 350) (-35) exCreated).status ≠
          ("notified").toList →
        (simTickBody (some 350) (-35) exCreated).status =
          ("watching").toList) :=
  ⟨by decide, by decide, by decide, by decide,
    tick_price_and_status (some 350) (-35) exCreated (by decide)
      (by decide) (by decide) (by decide)⟩

/-! ## C5 — sequential allocations never reuse a file name -/

/-- A successful allocation returns a name that is free in the store it
searched and that extends the attribute slug. -/
theorem allocate_free (store : Store) (wid o d t : Str) (fuel : Nat)
    (f r : Str)
    (h : _allocate_watch_file store wid o d t fuel = some (f, r)) :
    lookupStore store f = none ∧ ∃ rest, f = _slugify [o, d, t] ++ rest := by
  simp only [_allocate_watch_file] at h
  cases hl : allocLoop store (_slugify [o, d, t]) (wid.take 8) fuel
      (_slugify [o, d, t] ++ '-' :: wid.take 8) 1 with
  | none => rw [hl] at h; exact absurd h (by simp)
  | some fc =>
    rw [hl] at h
    simp only [Option.map_some', Option.some.injEq, Prod.mk.injEq] at h
    obtain ⟨hf, -⟩ := h
    have hl' : allocLoop store (_slugify [o, d, t]) (wid.take 8) fuel
        (_slugify [o, d, t] ++ '-' :: wid.take 8) 1 = some (f, fc.2) := by
      rw [hl, ← hf]
    obtain ⟨⟨rr, hrr⟩, hjson, hfree⟩ := allocLoop_shape fuel store _ _ _ _ _ _
      hl' ⟨'-' :: wid.take 8, rfl⟩
    refine ⟨hfree, rr ++ (".json").toList, ?_⟩
    rw [hjson, hrr, List.append_assoc]

/-- C5: when the file of a first allocation is persisted before a second
allocation runs, the two returned file names are distinct — even for
identical origin, destination and date (and even the same id) — because the
allocator re-checks existence and appends an incrementing numeric suffix
until the name is free. -/
theorem sequential_alloc_distinct (store : Store)
    (wid1 o1 d1 t1 wid2 o2 d2 t2 : Str) (fuel1 fuel2 : Nat)
    (f1 r1 f2 r2 : Str) (pl : Payload)
    (h1 : _allocate_watch_file store wid1 o1 d1 t1 fuel1 = some (f1, r1))
    (h2 : _allocate_watch_file ((f1, pl) :: store) wid2 o2 d2 t2 fuel2 =
      some (f2, r2)) :
    f1 ≠ f2 := by
  have hfree2 := (allocate_free _ _ _ _ _ _ _ _ h2).1
  intro heq
  rw [← heq] at hfree2
  simp [lookupStore] at hfree2

/-- Witness for C5: same attributes and same id twice, second store holding
the first file. -/
theorem sequential_alloc_distinct_witness :
    _allocate_watch_file [] exWid (("LHR").toList) (("LIS").toList)
        (("2025-06-01").toList) 2 =
      some (exName,
        ("flight-watch-lhr-lis-2025-06-01-ab12cd34").toList) ∧
    _allocate_watch_file [(exName, exCreated)] exWid (("LHR").toList)
        (("LIS").toList) (("2025-06-01").toList) 2 =
      some (exName1,
        ("flight-watch-lhr-lis-2025-06-01-ab12cd34-1").toList) ∧
    exName ≠ exName1 :=
  ⟨by decide, by decide,
    sequential_alloc_distinct [] exWid (("LHR").toList) (("LIS").toList)
      (("2025-06-01").toList) exWid (("LHR").toList) (("LIS").toList)
      (("2025-06-01").toList) 2 2 exName
      (("flight-watch-lhr-lis-2025-06-01-ab12cd34").toList) exName1
      (("flight-watch-lhr-lis-2025-06-01-ab12cd34-1").toList) exCreated
      (by decide) (by decide)⟩

/-! ## C6 — a valid create call persists the expected initial record -/

/-- C6: a successful create call persists a record with status `watching`
and exactly one history entry of sequence 0 whose price is the converted
initial price, under a file name that begins with the slug derived from
origin, destination and departure date. -/
theorem create_initial_record (store : Store) (dtail : Str)
    (args : CreateArgs) (wid : Str) (fuel : Nat) (store' : Store)
    (out : CreateOut)
    (h : track_flight_price store dtail args wid fuel = (store', .ok out)) :
    ∃ q payload rest,
      pyFloat (args.initial_price.getD (.num 0)) = some q ∧
      store' = (out.file_name, payload) :: store ∧
      payload.status = ("watching").toList ∧
      payload.history = [⟨0, ("snapshot").toList, q, initNote⟩] ∧
      out.file_name =
        _slugify [args.origin.getD [], args.destination.getD [],
          args.departure_date.getD []] ++ rest := by
  obtain ⟨q, payload, rest, hq, hst, hh, hw, hstore', hname, hfree⟩ :=
    track_success store dtail args wid fuel store' out h
  exact ⟨q, payload, rest, hq, hstore', hst, hh, hname⟩

/-- Witness for C6: the LHR-LIS scenario of the spec, whose slug is
`lhr-lis-2025-06-01`. -/
theorem create_initial_record_witness :
    _slugify [("LHR").toList, ("LIS").toList, ("2025-06-01").toList] =
      ("lhr-lis-2025-06-01").toList ∧
    ∃ q payload rest,
      pyFloat (exArgs.initial_price.getD (.num 0)) = some q ∧
      [(exName, exCreated)] = (exOut.file_name, payload) :: [] ∧
      payload.status = ("watching").toList ∧
      payload.history = [⟨0, ("snapshot").toList, q, initNote⟩] ∧
      exOut.file_name =
        _slugify [exArgs.origin.getD [], exArgs.destination.getD [],
          exArgs.departure_date.getD []] ++ rest :=
  ⟨by decide,
    create_initial_record [] exDir exArgs exWid 2 [(exName, exCreated)]
      exOut rfl⟩

/-! ## C7 — invalid create calls are rejected before any persistence -/

/-- C7: a create call missing any of origin, destination, departure date or
initial price, or whose initial price does not convert to a number, yields an
input-validation error and leaves the store exactly as it was — nothing is
written. -/
theorem create_rejects_invalid (store : Store) (dtail : Str)
    (args : CreateArgs) (wid : Str) (fuel : Nat)
    (hbad : args.origin.isNone ∨ args.destination.isNone ∨
      args.departure_date.isNone ∨ args.initial_price.isNone ∨
      pyFloat (args.initial_price.getD (.num 0)) = none) :
    ∃ e, track_flight_price store dtail args wid fuel =
      (store, .error e) := by
  by_cases hv : args.origin.isNone ∨ args.destination.isNone ∨
      args.departure_date.isNone ∨ args.initial_price.isNone
  · refine ⟨"Missing required arguments", ?_⟩
    unfold track_flight_price
    rw [if_pos hv]
  · have hpf : pyFloat (args.initial_price.getD (.num 0)) = none := by
      rcases hbad with h | h | h | h | h
      · exact absurd (Or.inl h) hv
      · exact absurd (Or.inr (Or.inl h)) hv
      · exact absurd (Or.inr (Or.inr (Or.inl h))) hv
      · exact absurd (Or.inr (Or.inr (Or.inr h))) hv
      · exact h
    refine ⟨"could not convert string to float", ?_⟩
    unfold track_flight_price
    rw [if_neg hv]
    simp only [hpf]

/-- Witness for C7: a call with no origin, and a call whose price is a
non-numeric string, both leave the store empty. -/
theorem create_rejects_invalid_witness :
    (∃ e, track_flight_price [] exDir { exArgs with origin := none } exWid 2 =
      ([], .error e)) ∧
    ∃ e, track_flight_price [] exDir
        { exArgs with initial_price := some (.strBad (("abc").toList)) }
        exWid 2 =
      ([], .error e) :=
  ⟨create_rejects_invalid [] exDir { exArgs with origin := none } exWid 2
      (Or.inl (by decide)),
    create_rejects_invalid [] exDir
      { exArgs with initial_price := some (.strBad (("abc").toList)) }
      exWid 2 (Or.inr (Or.inr (Or.inr (Or.inr (by decide)))))⟩

/-! ## C8 — read is verbatim only when the defaulted fields are present

`_load_watch` runs `setdefault` for `file_name` and `resource_name`, so a
stored record lacking either field is returned with fields added: the claim
fails on such records and holds once both fields are present. -/

/-- Counterexample to C8 as stated: a stored record without a `file_name`
field is not returned verbatim — the read result has `file_name` and
`resource_name` added. -/
theorem read_not_verbatim_cex :
    lookupStore [(exName, exPayload)] exName = some exPayload ∧
    handle_read_resource [(exName, exPayload)]
        (_resource_uri (('/' :: exDir) ++ '/' :: exName)) = .ok exLoaded ∧
    exLoaded ≠ exPayload :=
  ⟨rfl, rfl, by decide⟩

/-- C8 (amended): for a URI whose base name is a stored record that already
carries `file_name` and `resource_name` fields, whose embedded watch id
resolves back to that same file, the read operation returns the stored JSON
object with no fields added, removed or altered. -/
theorem read_verbatim_with_fields (store : Store) (dtail fname w : Str)
    (p : Payload)
    (hfs : '/' ∉ fname) (hfp : '%' ∉ fname) (hfb : '\\' ∉ fname)
    (hdp : '%' ∉ dtail) (hdb : '\\' ∉ dtail)
    (hrec : lookupStore store fname = some p)
    (hwid : p.watch_id = some w) (hne : w ≠ [])
    (hloc : _locate_watch_file store w = some (fname, p))
    (hfn : p.file_name.isSome) (hrn : p.resource_name.isSome) :
    handle_read_resource store
      (_resource_uri (('/' :: dtail) ++ '/' :: fname)) = .ok p := by
  have hparse : _parse_watch_id store
      (_resource_uri (('/' :: dtail) ++ '/' :: fname)) = .ok w := by
    rw [parse_locates store dtail fname hfs hfp hfb hdp hdb, hrec]
    simp only [widFromPayload, hwid, Option.getD_some]
    rw [if_neg hne, if_neg hne]
  obtain ⟨fn, hfn'⟩ := Option.isSome_iff_exists.1 hfn
  obtain ⟨rn, hrn'⟩ := Option.isSome_iff_exists.1 hrn
  unfold handle_read_resource
  rw [hparse]
  simp only [_load_watch, hloc, Option.map_some']
  obtain ⟨wid0, origin0, dest0, date0, st0, tp0, cf0, hist0, fn0, rn0,
    sm0⟩ := p
  simp only at hfn' hrn'
  subst hfn'
  subst hrn'
  rfl

/-- Witness for the amended C8: reading the example engine-created record —
which carries both fields — returns it verbatim. -/
theorem read_verbatim_with_fields_witness :
    handle_read_resource [(exName, exCreated)]
        (_resource_uri (('/' :: exDir) ++ '/' :: exName)) = .ok exCreated :=
  read_verbatim_with_fields [(exName, exCreated)] exDir exName exWid
    exCreated (by decide) (by decide) (by decide) (by decide) (by decide)
    (by decide) (by decide) (by decide) (by decide) (by decide) (by decide)

/-! ## C9 — the filename fallback takes the last hyphen token

For a collision-suffixed file `<slug>-<idprefix>-<n>.json` whose payload
lacks `watch_id`, the code runs `file_path.stem.split("-")[-1]`, which
yields the collision counter `<n>` — not the id prefix the claim expects. -/

/-- Counterexample to C9 as stated: for the collision-suffixed file
`lhr-lis-2025-06-01-ab12cd34-1.json` with no embedded `watch_id`, decoding
derives `"1"` — the collision counter — not the id prefix `"ab12cd34"`. -/
theorem fallback_id_last_token_cex :
    _parse_watch_id [(exName1, exNoId)]
        (_resource_uri (('/' :: exDir) ++ '/' :: exName1)) =
      .ok (("1").toList) ∧
    ("1").toList ≠ ("ab12cd34").toList :=
  ⟨rfl, by decide⟩

/-- C9 (amended): when the payload lacks a usable `watch_id`, decoding falls
back to the last hyphen-separated token of the file's stem — for a file
named `<stem>-<ds>.json` that token is `ds`, so for an allocator
collision-suffixed name it is the numeric counter, not the id prefix. -/
theorem fallback_id_last_token (store : Store) (dtail base ds : Str)
    (p : Payload)
    (hb1 : '/' ∉ base) (hb2 : '%' ∉ base) (hb3 : '\\' ∉ base)
    (hb4 : '.' ∉ base)
    (hd1 : '/' ∉ ds) (hd2 : '%' ∉ ds) (hd3 : '\\' ∉ ds) (hd4 : '.' ∉ ds)
    (hd5 : '-' ∉ ds) (hd6 : ds ≠ [])
    (hdp : '%' ∉ dtail) (hdb : '\\' ∉ dtail)
    (hrec : lookupStore store (base ++ '-' :: ds ++ (".json").toList) =
      some p)
    (hwid : p.watch_id = none ∨ p.watch_id = some []) :
    _parse_watch_id store (_resource_uri (('/' :: dtail) ++ '/' ::
      (base ++ '-' :: ds ++ (".json").toList))) = .ok ds := by
  have hmem : ∀ c : Char, c ∈ base ++ '-' :: ds ++ (".json").toList →
      c ∈ base ∨ c = '-' ∨ c ∈ ds ∨ c ∈ (".json").toList := by
    intro c hc
    simpa using hc
  have hfs : '/' ∉ base ++ '-' :: ds ++ (".json").toList := by
    intro hc
    rcases hmem '/' hc with h | h | h | h
    · exact hb1 h
    · exact absurd h (by decide)
    · exact hd1 h
    · exact absurd h (by decide)
  have hfp : '%' ∉ base ++ '-' :: ds ++ (".json").toList := by
    intro hc
    rcases hmem '%' hc with h | h | h | h
    · exact hb2 h
    · exact absurd h (by decide)
    · exact hd2 h
    · exact absurd h (by decide)
  have hfb : '\\' ∉ base ++ '-' :: ds ++ (".json").toList := by
    intro hc
    rcases hmem '\\' hc with h | h | h | h
    · exact hb3 h
    · exact absurd h (by decide)
    · exact hd3 h
    · exact absurd h (by decide)
  rw [parse_locates store dtail _ hfs hfp hfb hdp hdb, hrec]
  have hgetd : p.watch_id.getD [] = [] := by
    rcases hwid with h | h <;> rw [h] <;> rfl
  have hstem : pathStem (base ++ '-' :: ds ++ (".json").toList) =
      base ++ '-' :: ds := by
    have := pathStem_json (base ++ '-' :: ds)
      (by
        intro hc
        rcases (by simpa using hc : '.' ∈ base ∨ '.' = '-' ∨ '.' ∈ ds) with
          h | h | h
        · exact hb4 h
        · exact absurd h (by decide)
        · exact hd4 h)
      (by simp)
    simpa using this
  have hlast : lastTokenOf '-' (base ++ '-' :: ds) = ds :=
    lastTokenOf_append '-' base ds hd5
  simp only [widFromPayload, hgetd, hstem, hlast]
  simp [hd6]

/-- Witness for the amended C9 at the concrete collision-suffixed file. -/
theorem fallback_id_last_token_witness :
    _parse_watch_id [(exName1, exNoId)]
        (_resource_uri (('/' :: exDir) ++ '/' ::
          ((("lhr-lis-2025-06-01-ab12cd34").toList) ++ '-' ::
            (("1").toList) ++ (".json").toList))) =
      .ok (("1").toList) :=
  fallback_id_last_token [(exName1, exNoId)] exDir
    (("lhr-lis-2025-06-01-ab12cd34").toList) (("1").toList) exNoId
    (by decide) (by decide) (by decide) (by decide) (by decide) (by decide)
    (by decide) (by decide) (by decide) (by decide) (by decide) (by decide)
    (by decide) (Or.inl (by decide))

/-! ## C10 — the legacy fast path is not validated against the payload -/

/-- C10: when a file literally named `<id>.json` exists, `_locate_watch_file`
returns it without parsing or checking its embedded `watch_id` — the payload
is arbitrary here — and loading that id yields a record whose `watch_id` is
whatever the file contains, possibly different from the requested id. -/
theorem legacy_path_unvalidated (store : Store) (wid : Str) (p : Payload)
    (h : lookupStore store (wid ++ (".json").toList) = some p) :
    _locate_watch_file store wid = some (wid ++ (".json").toList, p) ∧
    ∃ q, _load_watch store wid = some q ∧ q.watch_id = p.watch_id := by
  have hloc : _locate_watch_file store wid =
      some (wid ++ (".json").toList, p) := by
    unfold _locate_watch_file
    rw [h]
  refine ⟨hloc,
    { p with
      file_name := some (p.file_name.getD (wid ++ (".json").toList))
      resource_name := some (p.resource_name.getD
        (("flight-watch-").toList ++ pathStem (wid ++ (".json").toList))) },
    ?_, rfl⟩
  unfold _load_watch
  rw [hloc]
  rfl

/-- Witness for C10: locating and loading id `abc` returns the `abc.json`
record whose embedded `watch_id` is `zzz`. -/
theorem legacy_path_unvalidated_witness :
    (_locate_watch_file [((("abc.json")).toList, exMismatch)]
        (("abc").toList) =
      some ((("abc").toList) ++ (".json").toList, exMismatch) ∧
    ∃ q, _load_watch [((("abc.json")).toList, exMismatch)] (("abc").toList) =
      some q ∧ q.watch_id = exMismatch.watch_id) ∧
    exMismatch.watch_id ≠ some (("abc").toList) :=
  ⟨legacy_path_unvalidated [((("abc.json")).toList, exMismatch)]
      (("abc").toList) exMismatch (by decide),
    by decide⟩

end FlightWatch
